import Mathlib

/-!
# Verification of the namespace-to-module rewriter (document-converter.ts)

A shallow embedding of the core of `src/document-converter.ts`: an
estree-style syntax tree (`Expr` / `Stmt`), the pure helper functions
(`getMemberPath`, `getExport`, `isUseStrict`, `getNamespaceExports`,
`getImportDeclarations`, `nodeToTemplateLiteral`), the per-document
rewrite phases (`unwrapModuleBody`, `rewriteSingleScopeThisReferences`,
`rewriteNamespaceThisReferences`, `rewriteNamespaceExports`) and the
registry-level conversion driver (`convertDocument` / dependency
conversion), together with theorems settling the specified properties.
-/

set_option maxHeartbeats 1000000

namespace DocumentConverter

/-- estree `SourceLocation`: start/end line and column, used by
`sourceLocationsEqual` to identify analyzer-reported nodes in the
program tree. -/
structure SourceLocation where
  startLine : Nat
  startCol : Nat
  endLine : Nat
  endCol : Nat
deriving DecidableEq, Repr

mutual

/-- estree expressions, restricted to the node kinds the converter
dispatches on.  `otherExpr` stands for every remaining estree
expression kind (none of the converter's `type` tests match it). -/
inductive Expr where
  | identifier (name : String)
  | thisExpr
  /-- `Literal`; `strValue = some s` for a string literal with value `s`,
  `none` for non-string literals. -/
  | lit (strValue : Option String)
  | objectExpr (props : List (Expr × Expr))
  | arrayExpr (elems : List Expr)
  | functionExpr (params : List String) (body : List Stmt) (generator : Bool)
  | arrowFunctionExpr (params : List String) (body : List Stmt)
  | memberExpr (obj : Expr) (prop : Expr)
  | callExpr (callee : Expr) (args : List Expr)
  | assignExpr (left : Expr) (right : Expr)
  | classDeclaration (name : String)
  | otherExpr
deriving BEq, Repr

/-- estree statements, restricted to the node kinds the converter
dispatches on.  Every constructor carries the optional source location
used by `sourceLocationsEqual` / `getNode`; nodes synthesized by the
converter carry `none`. -/
inductive Stmt where
  | exprStmt (e : Expr) (loc : Option SourceLocation)
  | varDecl (kind : String) (decls : List (Expr × Option Expr))
      (loc : Option SourceLocation)
  | functionDecl (name : String) (params : List String) (body : List Stmt)
      (generator : Bool) (loc : Option SourceLocation)
  | classDeclStmt (name : String) (loc : Option SourceLocation)
  | returnStmt (arg : Option Expr) (loc : Option SourceLocation)
  | exportNamedDecl (decl : Option Stmt) (specifiers : List (String × String))
      (loc : Option SourceLocation)
  | exportDefaultDecl (decl : Stmt) (loc : Option SourceLocation)
deriving BEq, Repr

end

/-- The estree `type` string of an expression, as tested by the
converter's `value.type === '...'` dispatches. -/
def Expr.typeOf : Expr → String
  | .identifier _ => "Identifier"
  | .thisExpr => "ThisExpression"
  | .lit _ => "Literal"
  | .objectExpr _ => "ObjectExpression"
  | .arrayExpr _ => "ArrayExpression"
  | .functionExpr _ _ _ => "FunctionExpression"
  | .arrowFunctionExpr _ _ => "ArrowFunctionExpression"
  | .memberExpr _ _ => "MemberExpression"
  | .callExpr _ _ => "CallExpression"
  | .assignExpr _ _ => "AssignmentExpression"
  | .classDeclaration _ => "ClassDeclaration"
  | .otherExpr => "OtherExpression"

/-- The source location attached to a statement. -/
def Stmt.loc : Stmt → Option SourceLocation
  | .exprStmt _ l => l
  | .varDecl _ _ l => l
  | .functionDecl _ _ _ _ l => l
  | .classDeclStmt _ l => l
  | .returnStmt _ l => l
  | .exportNamedDecl _ _ l => l
  | .exportDefaultDecl _ l => l

/-- `sourceLocationsEqual` from the source: two absent locations compare
equal (`aLoc === bLoc` on `null`s), an absent and a present location
compare unequal, and two present locations compare field by field. -/
def sourceLocationsEqual (a b : Option SourceLocation) : Bool :=
  match a, b with
  | none, none => true
  | some aLoc, some bLoc =>
      aLoc.startCol == bLoc.startCol && aLoc.startLine == bLoc.startLine &&
      aLoc.endCol == bLoc.endCol && aLoc.endLine == bLoc.endLine
  | _, _ => false

/-- `getMemberPath` from the source: the dotted identifier path of a
member-access chain, with a leading `window.` elided; `none` when the
expression is not a pure identifier chain. -/
def getMemberPath : Expr → Option (List String)
  | .memberExpr obj (.identifier property) =>
      match obj with
      | .thisExpr => some ["this", property]
      | .identifier name =>
          if name = "window" then some [property] else some [name, property]
      | .memberExpr o p =>
          match getMemberPath (.memberExpr o p) with
          | some prefixPath => some (prefixPath ++ [property])
          | none => none
      | _ => none
  | _ => none

/-- `getExport` from the source: an "export-shaped" statement is an
expression statement assigning to a member chain whose root is a known
namespace name; returns the path and the assigned value. -/
def getExport (statement : Stmt) (namespaces : List String) :
    Option (List String × Expr) :=
  match statement with
  | .exprStmt (.assignExpr left right) _ =>
      match left with
      | .memberExpr o p =>
          match getMemberPath (.memberExpr o p) with
          | some namespacePath =>
              match namespacePath with
              | root :: rest =>
                  if namespaces.contains root then
                    some (root :: rest, right)
                  else
                    none
              | [] => none
          | none => none
      | _ => none
  | _ => none

/-- `isUseStrict` from the source: an expression statement whose
expression is the string literal `use strict`. -/
def isUseStrict (statement : Stmt) : Bool :=
  match statement with
  | .exprStmt (.lit (some v)) _ => v = "use strict"
  | _ => false

/-- `isDeclaration` from the source: true only for a class declaration. -/
def isDeclaration (node : Expr) : Bool :=
  node.typeOf = "ClassDeclaration"

/-- A default statement, used only as the `headD` fallback in guards
that the length test already rules out. -/
def defaultStmt : Stmt := .exprStmt .otherExpr none

/-- `unwrapModuleBody` from the source: a program whose body is exactly
one expression statement calling a function expression is replaced by
that function's inner statements, dropping a leading `use strict`
directive only when the inner body has more than one statement. -/
def unwrapModuleBody (body : List Stmt) : List Stmt :=
  match body with
  | [.exprStmt (.callExpr (.functionExpr _params innerBody _gen) _args) _loc] =>
      if 1 < innerBody.length ∧ isUseStrict (innerBody.headD defaultStmt) then
        innerBody.tail
      else
        innerBody
  | _ => body

/-- Whether a program body has the single-IIFE shape that
`unwrapModuleBody` rewrites. -/
def isIifeProgram : List Stmt → Bool
  | [.exprStmt (.callExpr (.functionExpr _ _ _) _) _] => true
  | _ => false

/-- `getNamespaceExports` from the source: lowers each property of a
namespace object literal to an export statement, classified by the
property value's node kind.  Properties with a non-identifier key, and
properties whose value kind is unsupported, are skipped (with a console
warning in the source). -/
def getNamespaceExports (properties : List (Expr × Expr))
    (mutableExports : Option (List String)) : List (String × Stmt) :=
  match properties with
  | [] => []
  | (key, value) :: rest =>
      match key with
      | .identifier name =>
          (match value with
           | .objectExpr props =>
               let isMutable := (mutableExports.getD []).contains name
               [(name, .exportNamedDecl
                   (some (.varDecl (if isMutable then "let" else "const")
                       [(.identifier name, some (.objectExpr props))] none))
                   [] none)]
           | .arrayExpr elems =>
               let isMutable := (mutableExports.getD []).contains name
               [(name, .exportNamedDecl
                   (some (.varDecl (if isMutable then "let" else "const")
                       [(.identifier name, some (.arrayExpr elems))] none))
                   [] none)]
           | .lit v =>
               let isMutable := (mutableExports.getD []).contains name
               [(name, .exportNamedDecl
                   (some (.varDecl (if isMutable then "let" else "const")
                       [(.identifier name, some (.lit v))] none))
                   [] none)]
           | .functionExpr params body generator =>
               [(name, .exportNamedDecl
                   (some (.functionDecl name params body generator none))
                   [] none)]
           | .arrowFunctionExpr params body =>
               [(name, .exportNamedDecl
                   (some (.varDecl "const"
                       [(.identifier name, some (.arrowFunctionExpr params body))]
                       none))
                   [] none)]
           | .identifier valueName =>
               let _ := valueName
               [(name, .exportNamedDecl none [(name, name)] none)]
           | _ => []) ++ getNamespaceExports rest mutableExports
      | _ => getNamespaceExports rest mutableExports

/-- Whether an expression is an object, array or literal value — the
kinds that `getNamespaceExports` lowers to a `const`/`let` binding. -/
def isObjArrayLit (value : Expr) : Bool :=
  value.typeOf = "ObjectExpression" ∨ value.typeOf = "ArrayExpression" ∨
    value.typeOf = "Literal"

/-! ## Import synthesis (`getImportDeclarations` and helpers) -/

/-- estree import specifiers: a named import specifier binding
`imported` under `localName`, or a namespace specifier binding the
whole module under `localName`. -/
inductive ImportSpecifier where
  | importSpecifier (imported : String) (localName : String)
  | importNamespaceSpecifier (localName : String)
deriving DecidableEq, Repr

/-- estree `ImportDeclaration`: specifiers plus the source module URL. -/
structure ImportDeclaration where
  specifiers : List ImportSpecifier
  source : String
deriving DecidableEq, Repr

/-- `getImportAlias` from the source. -/
def getImportAlias (importId : String) : String :=
  "$" ++ importId

/-- `dashToCamelCase` from the source: each `-x` with `x` a lowercase
latin letter becomes the uppercase letter. -/
def dashToCamelCase (s : List Char) : List Char :=
  match s with
  | [] => []
  | '-' :: c :: rest =>
      if 'a' ≤ c ∧ c ≤ 'z' then c.toUpper :: dashToCamelCase rest
      else '-' :: dashToCamelCase (c :: rest)
  | c :: rest => c :: dashToCamelCase rest

/-- `path.basename`: the segment of a URL after the final slash
(external `path` collaborator, modelled directly). -/
def pathBasename (url : List Char) : List Char :=
  ((url.reverse.takeWhile (· ≠ '/')).reverse)

/-- `getModuleId` from the source: `$$` followed by the camel-cased
base name of the URL without its extension. -/
def getModuleId (url : String) : String :=
  let baseName := pathBasename url.toList
  let extensionLength := (baseName.reverse.takeWhile (· ≠ '.')).length
  let mainName :=
    if baseName.contains '.' then
      baseName.take (baseName.length - (extensionLength + 1))
    else []
  ⟨'$' :: '$' :: dashToCamelCase mainName⟩

/-- `getImportDeclarations` from the source: a namespace import when a
`*` reference was recorded, a named import for the remaining recorded
names, and a bare import (no specifiers) when neither exists. -/
def getImportDeclarations (specifierUrl : String)
    (namedExports : Option (List String)) : List ImportDeclaration :=
  let namedExportsArray := namedExports.getD []
  let hasNamespaceReference := namedExportsArray.contains "*"
  let namedSpecifiers :=
    (namedExportsArray.filter (· ≠ "*")).map
      (fun s => ImportSpecifier.importSpecifier s (getImportAlias s))
  (if hasNamespaceReference then
    [⟨[ImportSpecifier.importNamespaceSpecifier (getModuleId specifierUrl)],
      specifierUrl⟩]
  else []) ++
  (if 0 < namedSpecifiers.length ∨ ¬hasNamespaceReference then
    [⟨namedSpecifiers, specifierUrl⟩]
  else [])

/-! ## Markup literals (`nodeToTemplateLiteral`) -/

/-- The backtick character (code point 96). -/
def backtickChar : Char := Char.ofNat 96

/-- A character matched by the JavaScript `\s` class, as used by the
blank-line tests (`/^\s*$/`) on newline-free lines: the ECMAScript
WhiteSpace and LineTerminator sets — tab, line feed, vertical tab, form
feed, carriage return, space, no-break space (U+00A0), Ogham space mark
(U+1680), the U+2000..U+200A spaces, line separator (U+2028), paragraph
separator (U+2029), narrow no-break space (U+202F), medium mathematical
space (U+205F), ideographic space (U+3000) and the zero-width no-break
space (U+FEFF). -/
def isJsWhitespace (c : Char) : Bool :=
  c = ' ' ∨ c = '\t' ∨ c = '\n' ∨ c = '\x0b' ∨ c = '\x0c' ∨ c = '\r' ∨
  c = Char.ofNat 0xa0 ∨ c = Char.ofNat 0x1680 ∨
  (Char.ofNat 0x2000 ≤ c ∧ c ≤ Char.ofNat 0x200a) ∨
  c = Char.ofNat 0x2028 ∨ c = Char.ofNat 0x2029 ∨ c = Char.ofNat 0x202f ∨
  c = Char.ofNat 0x205f ∨ c = Char.ofNat 0x3000 ∨ c = Char.ofNat 0xfeff

/-- A line consisting only of whitespace (`/^\s*$/`). -/
def isBlankLine (line : List Char) : Bool :=
  line.all isJsWhitespace

/-- `String.prototype.split('\n')`. -/
def splitOnNewline : List Char → List (List Char)
  | [] => [[]]
  | c :: rest =>
      if c = '\n' then [] :: splitOnNewline rest
      else
        match splitOnNewline rest with
        | l :: ls => (c :: l) :: ls
        | [] => [[c]]

/-- `Array.prototype.join('\n')`. -/
def joinLines : List (List Char) → List Char
  | [] => []
  | [l] => l
  | l :: ls => l ++ '\n' :: joinLines ls

/-- `String.prototype.replace(/target/g, esc)` for a single-character
pattern: every occurrence of `target` becomes `esc`. -/
def replaceAllChar (target : Char) (esc : List Char) : List Char → List Char
  | [] => []
  | c :: rest =>
      (if c = target then esc else [c]) ++ replaceAllChar target esc rest

/-- A template element: the cooked and raw texts of a template literal
with no interpolations (`jsc.templateElement({cooked, raw}, true)`). -/
structure TemplateElement where
  cooked : List Char
  raw : List Char
deriving DecidableEq, Repr

/-- `nodeToTemplateLiteral` from the source, on the serialized HTML
text: drop leading and trailing whitespace-only lines, optionally wrap
in newlines, then escape backslash, backtick and `$` (in that order) to
obtain the raw text from the cooked text.  Serialization itself
(`parse5.serialize`) is an external collaborator; its output is this
function's input. -/
def nodeToTemplateLiteral (serialized : List Char)
    (addNewlines : Bool := true) : TemplateElement :=
  let lines := splitOnNewline serialized
  let lines := lines.dropWhile isBlankLine
  let lines := (lines.reverse.dropWhile isBlankLine).reverse
  let joined := joinLines lines
  let cooked := if addNewlines then '\n' :: joined ++ ['\n'] else joined
  let raw :=
    replaceAllChar '$' ['\\', '$']
      (replaceAllChar backtickChar ['\\', backtickChar]
        (replaceAllChar '\\' ['\\', '\\'] cooked))
  ⟨cooked, raw⟩

/-- The per-character escape map realized by the three sequential
replacements in `nodeToTemplateLiteral`. -/
def templateEscapeChar (c : Char) : List Char :=
  if c = '\\' then ['\\', '\\']
  else if c = backtickChar then ['\\', backtickChar]
  else if c = '$' then ['\\', '$']
  else [c]

/-! ## `this`-reference normalization
(`rewriteNamespaceThisReferences` / `rewriteSingleScopeThisReferences`) -/

mutual

/-- The expression part of `rewriteSingleScopeThisReferences`: replace
every `ThisExpression` with the namespace identifier, but do not visit
into `FunctionExpression` or `FunctionDeclaration` scopes (the two node
kinds the source traversal stops at; every other node, arrow functions
included, is traversed). -/
def rewriteThisExpr (namespaceReference : String) : Expr → Expr
  | .identifier name => .identifier name
  | .thisExpr => .identifier namespaceReference
  | .lit v => .lit v
  | .objectExpr props =>
      .objectExpr (rewriteThisProps namespaceReference props)
  | .arrayExpr elems => .arrayExpr (rewriteThisExprs namespaceReference elems)
  | .functionExpr params body generator => .functionExpr params body generator
  | .arrowFunctionExpr params body =>
      .arrowFunctionExpr params (rewriteThisStmts namespaceReference body)
  | .memberExpr obj prop =>
      .memberExpr (rewriteThisExpr namespaceReference obj)
        (rewriteThisExpr namespaceReference prop)
  | .callExpr callee args =>
      .callExpr (rewriteThisExpr namespaceReference callee)
        (rewriteThisExprs namespaceReference args)
  | .assignExpr left right =>
      .assignExpr (rewriteThisExpr namespaceReference left)
        (rewriteThisExpr namespaceReference right)
  | .classDeclaration name => .classDeclaration name
  | .otherExpr => .otherExpr

/-- `rewriteThisExpr` over a list of expressions. -/
def rewriteThisExprs (namespaceReference : String) : List Expr → List Expr
  | [] => []
  | e :: rest =>
      rewriteThisExpr namespaceReference e ::
        rewriteThisExprs namespaceReference rest

/-- `rewriteThisExpr` over object properties. -/
def rewriteThisProps (namespaceReference : String) :
    List (Expr × Expr) → List (Expr × Expr)
  | [] => []
  | (k, v) :: rest =>
      (rewriteThisExpr namespaceReference k,
        rewriteThisExpr namespaceReference v) ::
        rewriteThisProps namespaceReference rest

/-- The statement part of `rewriteSingleScopeThisReferences`: traverse
statements, stopping at `FunctionDeclaration` scopes. -/
def rewriteThisStmt (namespaceReference : String) : Stmt → Stmt
  | .exprStmt e l => .exprStmt (rewriteThisExpr namespaceReference e) l
  | .varDecl kind decls l =>
      .varDecl kind (rewriteThisDecls namespaceReference decls) l
  | .functionDecl name params body generator l =>
      .functionDecl name params body generator l
  | .classDeclStmt name l => .classDeclStmt name l
  | .returnStmt arg l =>
      .returnStmt (rewriteThisOptExpr namespaceReference arg) l
  | .exportNamedDecl decl specifiers l =>
      .exportNamedDecl (rewriteThisOptStmt namespaceReference decl)
        specifiers l
  | .exportDefaultDecl decl l =>
      .exportDefaultDecl (rewriteThisStmt namespaceReference decl) l

/-- `rewriteThisExpr` over variable declarators. -/
def rewriteThisDecls (namespaceReference : String) :
    List (Expr × Option Expr) → List (Expr × Option Expr)
  | [] => []
  | (id, init) :: rest =>
      (rewriteThisExpr namespaceReference id,
        rewriteThisOptExpr namespaceReference init) ::
        rewriteThisDecls namespaceReference rest

/-- `rewriteThisExpr` over an optional expression. -/
def rewriteThisOptExpr (namespaceReference : String) :
    Option Expr → Option Expr
  | none => none
  | some e => some (rewriteThisExpr namespaceReference e)

/-- `rewriteThisStmt` over an optional statement. -/
def rewriteThisOptStmt (namespaceReference : String) :
    Option Stmt → Option Stmt
  | none => none
  | some s => some (rewriteThisStmt namespaceReference s)

/-- `rewriteThisStmt` over a list of statements. -/
def rewriteThisStmts (namespaceReference : String) : List Stmt → List Stmt
  | [] => []
  | s :: rest =>
      rewriteThisStmt namespaceReference s ::
        rewriteThisStmts namespaceReference rest

end

/-- `rewriteSingleScopeThisReferences` from the source: rewrite `this`
references within a single function body, without descending into
nested `FunctionExpression`/`FunctionDeclaration` scopes. -/
def rewriteSingleScopeThisReferences (blockStatement : List Stmt)
    (namespaceReference : String) : List Stmt :=
  rewriteThisStmts namespaceReference blockStatement

/-- `rewriteNamespaceThisReferences` from the source: for every named
or default export whose declaration is a `FunctionDeclaration`, rewrite
`this` references in the declaration's body; leave every other
statement alone.  No-op when no namespace name is known. -/
def rewriteNamespaceThisReferences (namespaceName : Option String)
    (program : List Stmt) : List Stmt :=
  match namespaceName with
  | none => program
  | some ns =>
      program.map fun statement =>
        match statement with
        | .exportNamedDecl (some (.functionDecl name params body generator l₂))
            specifiers l =>
            .exportNamedDecl
              (some (.functionDecl name params
                (rewriteSingleScopeThisReferences body ns) generator l₂))
              specifiers l
        | .exportDefaultDecl (.functionDecl name params body generator l₂) l =>
            .exportDefaultDecl
              (.functionDecl name params
                (rewriteSingleScopeThisReferences body ns) generator l₂) l
        | s => s

mutual

/-- Observer: does an expression contain a `this` reference outside
every `FunctionExpression`/`FunctionDeclaration` scope (the scopes the
rewrite stops at)?  Arrow-function bodies count as outside, matching
`this` inheritance. -/
def hasOuterThisExpr : Expr → Bool
  | .identifier _ => false
  | .thisExpr => true
  | .lit _ => false
  | .objectExpr props => hasOuterThisProps props
  | .arrayExpr elems => hasOuterThisExprs elems
  | .functionExpr _ _ _ => false
  | .arrowFunctionExpr _ body => hasOuterThisStmts body
  | .memberExpr obj prop => hasOuterThisExpr obj || hasOuterThisExpr prop
  | .callExpr callee args => hasOuterThisExpr callee || hasOuterThisExprs args
  | .assignExpr left right => hasOuterThisExpr left || hasOuterThisExpr right
  | .classDeclaration _ => false
  | .otherExpr => false

/-- `hasOuterThisExpr` over a list of expressions. -/
def hasOuterThisExprs : List Expr → Bool
  | [] => false
  | e :: rest => hasOuterThisExpr e || hasOuterThisExprs rest

/-- `hasOuterThisExpr` over object properties. -/
def hasOuterThisProps : List (Expr × Expr) → Bool
  | [] => false
  | (k, v) :: rest =>
      hasOuterThisExpr k || hasOuterThisExpr v || hasOuterThisProps rest

/-- Observer: does a statement contain a `this` reference outside every
function scope? -/
def hasOuterThisStmt : Stmt → Bool
  | .exprStmt e _ => hasOuterThisExpr e
  | .varDecl _ decls _ => hasOuterThisDecls decls
  | .functionDecl _ _ _ _ _ => false
  | .classDeclStmt _ _ => false
  | .returnStmt arg _ => hasOuterThisOptExpr arg
  | .exportNamedDecl decl _ _ => hasOuterThisOptStmt decl
  | .exportDefaultDecl decl _ => hasOuterThisStmt decl

/-- `hasOuterThisExpr` over variable declarators. -/
def hasOuterThisDecls : List (Expr × Option Expr) → Bool
  | [] => false
  | (id, init) :: rest =>
      hasOuterThisExpr id || hasOuterThisOptExpr init ||
        hasOuterThisDecls rest

/-- `hasOuterThisExpr` over an optional expression. -/
def hasOuterThisOptExpr : Option Expr → Bool
  | none => false
  | some e => hasOuterThisExpr e

/-- `hasOuterThisStmt` over an optional statement. -/
def hasOuterThisOptStmt : Option Stmt → Bool
  | none => false
  | some s => hasOuterThisStmt s

/-- `hasOuterThisStmt` over a list of statements. -/
def hasOuterThisStmts : List Stmt → Bool
  | [] => false
  | s :: rest => hasOuterThisStmt s || hasOuterThisStmts rest

end

/-! ## Locating analyzer nodes in the program (`getNode`) -/

mutual

/-- `getNode`'s visit of one statement: pre-order search for a node
whose source location equals the target's.  Expressions carry no
locations in this embedding, so only statements can match; the search
still descends through expressions into nested statement bodies. -/
def getNodeStmt (target : Option SourceLocation) (s : Stmt) : Option Stmt :=
  if sourceLocationsEqual s.loc target then some s
  else
    match s with
    | .exprStmt e _ => getNodeExpr target e
    | .varDecl _ decls _ => getNodeDecls target decls
    | .functionDecl _ _ body _ _ => getNodeStmts target body
    | .classDeclStmt _ _ => none
    | .returnStmt arg _ => getNodeOptExpr target arg
    | .exportNamedDecl decl _ _ => getNodeOptStmt target decl
    | .exportDefaultDecl decl _ => getNodeStmt target decl

/-- `getNode`'s search through an expression's children. -/
def getNodeExpr (target : Option SourceLocation) (e : Expr) : Option Stmt :=
  match e with
  | .identifier _ => none
  | .thisExpr => none
  | .lit _ => none
  | .objectExpr props => getNodeProps target props
  | .arrayExpr elems => getNodeExprs target elems
  | .functionExpr _ body _ => getNodeStmts target body
  | .arrowFunctionExpr _ body => getNodeStmts target body
  | .memberExpr obj prop =>
      match getNodeExpr target obj with
      | some n => some n
      | none => getNodeExpr target prop
  | .callExpr callee args =>
      match getNodeExpr target callee with
      | some n => some n
      | none => getNodeExprs target args
  | .assignExpr left right =>
      match getNodeExpr target left with
      | some n => some n
      | none => getNodeExpr target right
  | .classDeclaration _ => none
  | .otherExpr => none

/-- `getNode`'s search through a list of expressions. -/
def getNodeExprs (target : Option SourceLocation) : List Expr → Option Stmt
  | [] => none
  | e :: rest =>
      match getNodeExpr target e with
      | some n => some n
      | none => getNodeExprs target rest

/-- `getNode`'s search through object properties. -/
def getNodeProps (target : Option SourceLocation) :
    List (Expr × Expr) → Option Stmt
  | [] => none
  | (k, v) :: rest =>
      match getNodeExpr target k with
      | some n => some n
      | none =>
          match getNodeExpr target v with
          | some n => some n
          | none => getNodeProps target rest

/-- `getNode`'s search through variable declarators. -/
def getNodeDecls (target : Option SourceLocation) :
    List (Expr × Option Expr) → Option Stmt
  | [] => none
  | (id, init) :: rest =>
      match getNodeExpr target id with
      | some n => some n
      | none =>
          match getNodeOptExpr target init with
          | some n => some n
          | none => getNodeDecls target rest

/-- `getNode`'s search through an optional expression. -/
def getNodeOptExpr (target : Option SourceLocation) :
    Option Expr → Option Stmt
  | none => none
  | some e => getNodeExpr target e

/-- `getNode`'s search through an optional statement. -/
def getNodeOptStmt (target : Option SourceLocation) :
    Option Stmt → Option Stmt
  | none => none
  | some s => getNodeStmt target s

/-- `getNode` from the source, over a program body: the first node (in
pre-order) whose source location equals the target's. -/
def getNodeStmts (target : Option SourceLocation) : List Stmt → Option Stmt
  | [] => none
  | s :: rest =>
      match getNodeStmt target s with
      | some n => some n
      | none => getNodeStmts target rest

end

/-! ## The namespace-export state machine (`rewriteNamespaceExports`) -/

/-- An analyzer feature, as consumed by the converter: the identifiers
it is known by, its kinds, and the source location of its syntax-tree
node. -/
structure Feature where
  identifiers : List String
  kinds : List String
  astNode : Option SourceLocation
deriving Repr

/-- The read-only context of one document conversion: the
`AnalysisConverter`'s namespace-name set, the document's features (for
`getFeatures({id})` queries), the source locations of the script
document's namespace features (for `isNamespace`), the mutable-export
configuration, and this module's URL. -/
structure RewriteCtx where
  namespaces : List String
  docFeatures : List Feature
  scriptNamespaceLocs : List (Option SourceLocation)
  mutableExports : List (String × List String)
  jsUrl : String

/-- The mutable state of `rewriteNamespaceExports`: the program body,
the shared statement cursor, the two namespace-name variables, this
module's export-name set, and the process-wide namespaced-export
registry entries written by `addExport`. -/
structure RewriteState where
  body : List Stmt
  currentStatementIndex : Int
  localNamespaceName : Option String
  namespaceName : Option String
  moduleExports : List String
  namespacedExports : List (String × String × String)
deriving Repr

/-- First value bound to a key in an association list. -/
def lookupAssoc {α : Type} (map : List (String × α)) (key : String) :
    Option α :=
  match map with
  | [] => none
  | (k, v) :: rest => if k = key then some v else lookupAssoc rest key

/-- `Map.prototype.set`: replace the first binding of the key, or
append a new binding. -/
def setAssoc {α : Type} (map : List (String × α)) (key : String) (v : α) :
    List (String × α) :=
  match map with
  | [] => [(key, v)]
  | (k, w) :: rest =>
      if k = key then (k, v) :: rest else (k, w) :: setAssoc rest key v

/-- `Set.prototype.add`: append the element unless present. -/
def addToSet (s : List String) (x : String) : List String :=
  if s.contains x then s else s ++ [x]

/-- `DocumentConverter.addExport` from the source: record the name on
this module's export set and map the namespace path to
`(this.jsUrl, name)` in the namespaced-export registry. -/
def addExport (jsUrl : String) (st : RewriteState) (namespaceName : String)
    (name : String) : RewriteState :=
  { st with
    moduleExports := addToSet st.moduleExports name,
    namespacedExports := setAssoc st.namespacedExports namespaceName
      (jsUrl, name) }

/-- `DocumentConverter.isNamespace` from the source: whether the
statement's source location equals a script namespace feature's. -/
def isNamespace (ctx : RewriteCtx) (node : Stmt) : Bool :=
  ctx.scriptNamespaceLocs.any fun l => sourceLocationsEqual l node.loc

/-- `Array.prototype.indexOf`: first index of an equal element, `-1`
when absent. -/
def jsIndexOf (l : List Stmt) (x : Stmt) : Int :=
  match l.findIdx? (fun s => s == x) with
  | some i => (i : Int)
  | none => -1

/-- `Array.prototype.splice(start, deleteCount, ...items)`: a negative
start counts back from the end. -/
def jsSplice {α : Type} (l : List α) (start : Int) (deleteCount : Nat)
    (items : List α) : List α :=
  let actualStart :=
    if start < 0 then (max ((l.length : Int) + start) 0).toNat
    else min start.toNat l.length
  l.take actualStart ++ items ++ l.drop (actualStart + deleteCount)

/-- `DocumentConverter.rewriteNamespaceObject` from the source: lower
the object's properties to exports, splice them in place of the
namespace statement, advance the cursor past them, and register every
member (and the namespace itself as `*`) in the export registries. -/
def rewriteNamespaceObjectStep (ctx : RewriteCtx) (st : RewriteState)
    (name : String) (properties : List (Expr × Expr)) (statement : Stmt) :
    RewriteState :=
  let mutableExports := lookupAssoc ctx.mutableExports name
  let exports := getNamespaceExports properties mutableExports
  let nsIndex := jsIndexOf st.body statement
  let st := { st with
    body := jsSplice st.body nsIndex 1 (exports.map (·.2)),
    currentStatementIndex := st.currentStatementIndex + exports.length - 1 }
  let st := exports.foldl
    (fun s e => addExport ctx.jsUrl s (name ++ "." ++ e.1) e.1) st
  addExport ctx.jsUrl st name "*"

/-- The `nsNode` extraction in the identifier branch of
`rewriteNamespaceExports`: the object-literal body of the located
namespace declaration (`const n = {...}` or `n = {...}`); `none` when
the unchecked casts in the source would fault at runtime. -/
def extractNamespaceObject (nsParent : Stmt) : Option (List (Expr × Expr)) :=
  match nsParent with
  | .varDecl _ decls _ =>
      match decls with
      | (_, some (.objectExpr props)) :: _ => some props
      | _ => none
  | .exprStmt (.assignExpr _ (.objectExpr props)) _ => some props
  | _ => none

/-- The final branch of the `rewriteNamespaceExports` loop body: a
statement that is export-shaped with respect to the locally declared
namespace name is lowered to a new `const` export. -/
def localNamespaceAssignmentStep (ctx : RewriteCtx) (st : RewriteState)
    (statement : Stmt) (localNs : String) : RewriteState :=
  match getExport statement [localNs] with
  | some (namespacePath, value) =>
      let name := namespacePath.getLastD ""
      let namespaceName := String.intercalate "." namespacePath
      let st := { st with
        body := st.body.set st.currentStatementIndex.toNat
          (.exportNamedDecl
            (some (.varDecl "const" [(.identifier name, some value)] none))
            [] none),
        namespaceName := some namespaceName }
      addExport ctx.jsUrl st namespaceName name
  | none => st

/-- The body of one `rewriteNamespaceExports` loop iteration:
everything between reading the current statement and the common cursor
increment at the end of the loop. -/
def rewriteStatementStep (ctx : RewriteCtx) (st : RewriteState)
    (statement : Stmt) : Except String RewriteState :=
  match getExport statement ctx.namespaces with
  | some (namespacePath, value) =>
      let namespaceName := String.intercalate "." namespacePath
      let st := { st with namespaceName := some namespaceName }
      match value with
      | .objectExpr props =>
          if isNamespace ctx statement then
            let st := rewriteNamespaceObjectStep ctx st namespaceName props
              statement
            .ok { st with localNamespaceName := some namespaceName }
          else
            -- an object literal not recognized as a namespace feature falls
            -- through to the final `const` re-export branch
            let name := namespacePath.getLastD ""
            let nsAndName :=
              if namespaceName = "Polymer._polymerFn" then
                ("Polymer", "Polymer")
              else (namespaceName, name)
            let st := { st with
              body := st.body.set st.currentStatementIndex.toNat
                (.exportNamedDecl
                  (some (.varDecl "const"
                    [(.identifier nsAndName.2, some value)] none))
                  [] none),
              namespaceName := some nsAndName.1 }
            .ok (addExport ctx.jsUrl st nsAndName.1 nsAndName.2)
      | .identifier localName =>
          let features := ctx.docFeatures.filter
            (fun f => f.identifiers.contains namespaceName)
          let referencedFeature := features.find?
            (fun f => f.identifiers.contains namespaceName)
          match referencedFeature with
          | some f =>
              if f.kinds.contains "namespace" then
                match getNodeStmts f.astNode st.body with
                | none => .error "cannot find associated node for namespace"
                | some nsParent =>
                    match extractNamespaceObject nsParent with
                    | none => .error "TypeError"
                    | some props =>
                        let st := rewriteNamespaceObjectStep ctx st
                          namespaceName props nsParent
                        .ok { st with
                          body := jsSplice st.body st.currentStatementIndex 1
                            [],
                          currentStatementIndex :=
                            st.currentStatementIndex - 1 }
              else
                let exportedName := namespacePath.getLastD ""
                let st := { st with
                  body := st.body.set st.currentStatementIndex.toNat
                    (.exportNamedDecl none [(localName, exportedName)]
                      none) }
                .ok (addExport ctx.jsUrl st namespaceName exportedName)
          | none =>
              let exportedName := namespacePath.getLastD ""
              let st := { st with
                body := st.body.set st.currentStatementIndex.toNat
                  (.exportNamedDecl none [(localName, exportedName)] none) }
              .ok (addExport ctx.jsUrl st namespaceName exportedName)
      | value =>
          if isDeclaration value then
            .ok { st with
              body := st.body.set st.currentStatementIndex.toNat
                (match value with
                 | .classDeclaration cname =>
                     .exportNamedDecl (some (.classDeclStmt cname none)) []
                       none
                 | _ => .exportNamedDecl none [] none) }
          else
            let name := namespacePath.getLastD ""
            let nsAndName :=
              if namespaceName = "Polymer._polymerFn" then
                ("Polymer", "Polymer")
              else (namespaceName, name)
            let st := { st with
              body := st.body.set st.currentStatementIndex.toNat
                (.exportNamedDecl
                  (some (.varDecl "const"
                    [(.identifier nsAndName.2, some value)] none))
                  [] none),
              namespaceName := some nsAndName.1 }
            .ok (addExport ctx.jsUrl st nsAndName.1 nsAndName.2)
  | none =>
      match statement with
      | .varDecl kind decls l =>
          if isNamespace ctx (.varDecl kind decls l) then
            match decls with
            | [] => .error "TypeError"
            | (id, _) :: _ =>
                match id with
                | .identifier n =>
                    .ok { st with localNamespaceName := some n }
                | _ => .ok st
          else
            match st.localNamespaceName with
            | some localNs =>
                .ok (localNamespaceAssignmentStep ctx st
                  (.varDecl kind decls l) localNs)
            | none => .ok st
      | statement =>
          match st.localNamespaceName with
          | some localNs =>
              .ok (localNamespaceAssignmentStep ctx st statement localNs)
          | none => .ok st

/-- One full run of the `rewriteNamespaceExports` statement loop,
structured on explicit fuel; every loop iteration decreases
`body.length - currentStatementIndex` by exactly one, so the fuel
passed by `rewriteNamespaceExports` never runs out. -/
def rewriteNamespaceExportsLoop (ctx : RewriteCtx) (fuel : Nat)
    (st : RewriteState) : Except String RewriteState :=
  match fuel with
  | 0 =>
      if st.currentStatementIndex < (st.body.length : Int) then .error "fuel"
      else .ok st
  | fuel + 1 =>
      if st.currentStatementIndex < (st.body.length : Int) then
        if st.currentStatementIndex < 0 then .error "TypeError"
        else
          match st.body[st.currentStatementIndex.toNat]? with
          | none => .error "TypeError"
          | some statement =>
              match rewriteStatementStep ctx st statement with
              | .error e => .error e
              | .ok st₂ =>
                  rewriteNamespaceExportsLoop ctx fuel
                    { st₂ with currentStatementIndex :=
                      st₂.currentStatementIndex + 1 }
      else .ok st

/-- `rewriteNamespaceExports` from the source: walk the top-level
statements from the current cursor, replacing namespace assignments
with module exports; returns the final body, registries and the two
namespace names. -/
def rewriteNamespaceExports (ctx : RewriteCtx) (body : List Stmt)
    (startIdx : Int := 0) : Except String RewriteState :=
  rewriteNamespaceExportsLoop ctx
    (((body.length : Int) - startIdx).toNat + 1)
    ⟨body, startIdx, none, none, [], []⟩

/-! ## Document conversion and the module registry
(`convertDependencies`, the `DocumentConverter` constructor, and the
orchestrating `AnalysisConverter.convertDocument`) -/

/-- A `JsModule` record: the converted output unit. -/
structure JsModule where
  url : String
  source : String
  exports : List String
  importedReferences : List (String × List String)
deriving DecidableEq, Repr

/-- Modelled from the spec: `htmlUrlToJs` lives in `url-converter.ts`,
which is not part of the analyzed source; the spec says only that the
module URL is "derived deterministically from the document URL".
Modelled as replacing a trailing `.html` extension with `.js`; the
optional base URL used for relative resolution is ignored. -/
def htmlUrlToJs (url : String) (_base : String := "") : String :=
  let cs := url.toList
  if cs.reverse.take 5 = ['l', 'm', 't', 'h', '.'] then
    ⟨cs.take (cs.length - 5) ++ ['.', 'j', 's']⟩
  else ⟨cs ++ ['.', 'j', 's']⟩

/-- An analyzer `Document`: its URL, its embedded `js-document`
features (each carrying a parsed program), and its HTML-import edges
(each carrying the target URL and target document). -/
inductive Document where
  | mk (url : String) (scripts : List (List Stmt))
      (imports : List (String × Document))

/-- The URL of a document. -/
def Document.url : Document → String
  | .mk u _ _ => u

/-- The embedded scripts of a document. -/
def Document.scripts : Document → List (List Stmt)
  | .mk _ s _ => s

/-- The HTML-import edges of a document. -/
def Document.imports : Document → List (String × Document)
  | .mk _ _ i => i

/-- The effect of the `DocumentConverter` constructor (source lines
104-133): register a fresh module record (empty source) under the
derived JS URL, then bind the program — empty when the document has no
script, the parsed script when it has exactly one, and absent (after
logging a diagnostic) when it has more than one. -/
structure ConstructorResult where
  modules : List (String × JsModule)
  module : JsModule
  program : Option (List Stmt)
  log : List String
deriving Repr

/-- The `DocumentConverter` constructor from the source. -/
def mkDocumentConverter (modules : List (String × JsModule))
    (document : Document) : ConstructorResult :=
  let jsUrl := htmlUrlToJs document.url
  let module : JsModule := ⟨jsUrl, "", [], []⟩
  let modules := setAssoc modules jsUrl module
  match document.scripts with
  | [] => ⟨modules, module, some [], []⟩
  | [script] => ⟨modules, module, some script, []⟩
  | _ => ⟨modules, module, none, ["multiple scripts"]⟩

mutual

/-- Modelled from the spec: `AnalysisConverter.convertDocument`
(analysis-converter.ts is not part of the analyzed source).  Per the
spec it is "idempotent per URL (checked against the Reference Index
before doing work)": when a module record already exists under the
document's derived JS URL it performs no further mutation and yields
the existing record.  Otherwise it runs the `DocumentConverter`
constructor; if the constructor aborted (multiple embedded scripts) the
conversion stops with the module record left empty, else dependencies
are converted first (`DocumentConverter.convertDependencies`, from the
source) and the pipeline's final effect on the registry — storing the
printed source text on the module record — is modelled as setting a
fixed non-empty source text. -/
def convertDocument (excludes : List String)
    (modules : List (String × JsModule)) (document : Document) :
    List (String × JsModule) × JsModule × List String :=
  match lookupAssoc modules (htmlUrlToJs document.url) with
  | some existing => (modules, existing, [])
  | none =>
      let r := mkDocumentConverter modules document
      match r.program with
      | none => (r.modules, r.module, r.log)
      | some _ =>
          let modules₂ := convertDeps excludes r.modules document.url
            document.imports
          let converted := { r.module with source := "<printed module source>" }
          (setAssoc modules₂ r.module.url converted, converted, r.log)
termination_by sizeOf document
decreasing_by cases document; simp [Document.imports]

/-- `DocumentConverter.convertDependencies` from the source (lines
407-416), composed with the `getHtmlImports` exclusion filter: walk the
HTML imports, skip excluded targets and targets whose derived JS URL is
already registered, and recursively convert the rest. -/
def convertDeps (excludes : List String)
    (modules : List (String × JsModule)) (baseUrl : String)
    (imports : List (String × Document)) : List (String × JsModule) :=
  match imports with
  | [] => modules
  | (importUrl, importDoc) :: rest =>
      if excludes.contains importUrl then
        convertDeps excludes modules baseUrl rest
      else
        let jsUrl := htmlUrlToJs importUrl baseUrl
        if (lookupAssoc modules jsUrl).isSome then
          convertDeps excludes modules baseUrl rest
        else
          convertDeps excludes
            (convertDocument excludes modules importDoc).1 baseUrl rest
termination_by sizeOf imports
decreasing_by all_goals simp <;> omega

end

/-! ## Observers used by the theorems -/

/-- The binding keyword of an export statement that declares a variable
binding (`const`/`let`), `none` for any other export shape. -/
def exportBindingKind : Stmt → Option String
  | .exportNamedDecl (some (.varDecl kind _ _)) _ _ => some kind
  | _ => none

/-- Whether a statement is a named or default export whose declaration
is a `FunctionDeclaration` — the statements whose bodies
`rewriteNamespaceThisReferences` rewrites. -/
def isExportedFunctionDeclStmt : Stmt → Bool
  | .exportNamedDecl (some (.functionDecl _ _ _ _ _)) _ _ => true
  | .exportDefaultDecl (.functionDecl _ _ _ _ _) _ => true
  | _ => false

/-- Key lookups in an association list are unchanged by `setAssoc` at a
different key. -/
theorem lookupAssoc_setAssoc_ne {α : Type} (map : List (String × α))
    (key otherKey : String) (v : α) (h : otherKey ≠ key) :
    lookupAssoc (setAssoc map key v) otherKey = lookupAssoc map otherKey := by
  have h' : ¬key = otherKey := fun e => h e.symm
  induction map with
  | nil => simp [setAssoc, lookupAssoc, h']
  | cons head rest ih =>
      obtain ⟨k, w⟩ := head
      by_cases hk : k = key
      · subst hk
        simp [setAssoc, lookupAssoc, h']
      · simp [setAssoc, hk, lookupAssoc]
        by_cases hk2 : k = otherKey
        · simp [hk2]
        · simp [hk2, ih]

/-! ## Claim theorems -/

/-- C10: `getMemberPath` elides a leading `window` segment
(`window.Foo` yields `["Foo"]`), keeps any other root identifier as the
first segment, and consequently `window.`-rooted and bare-rooted dotted
assignments are export-shaped (per `getExport`) under exactly the same
namespace-membership condition. -/
theorem C10_window_root_elision :
    (∀ p : String,
      getMemberPath (.memberExpr (.identifier "window") (.identifier p)) =
        some [p]) ∧
    (∀ r p : String, r ≠ "window" →
      getMemberPath (.memberExpr (.identifier r) (.identifier p)) =
        some [r, p]) ∧
    (∀ a b : String,
      getMemberPath (.memberExpr
        (.memberExpr (.identifier "window") (.identifier a))
        (.identifier b)) = some [a, b]) ∧
    (∀ (namespaces : List String) (value : Expr) (p : String)
        (loc : Option SourceLocation),
      (getExport (.exprStmt (.assignExpr
          (.memberExpr (.identifier "window") (.identifier p)) value) loc)
        namespaces).isSome = namespaces.contains p) ∧
    (∀ (namespaces : List String) (value : Expr) (root p : String)
        (loc : Option SourceLocation), root ≠ "window" →
      (getExport (.exprStmt (.assignExpr
          (.memberExpr (.identifier root) (.identifier p)) value) loc)
        namespaces).isSome = namespaces.contains root) := by
  refine ⟨?_, ?_, ?_, ?_, ?_⟩
  · intro p
    simp [getMemberPath]
  · intro r p h
    simp [getMemberPath, h]
  · intro a b
    simp [getMemberPath]
  · intro namespaces value p loc
    by_cases h : p ∈ namespaces <;>
      simp [getExport, getMemberPath, h]
  · intro namespaces value root p loc hr
    by_cases h : root ∈ namespaces <;>
      simp [getExport, getMemberPath, hr, h]

/-- C10 witness: a non-`window` root is kept as the first segment. -/
theorem C10_witness :
    getMemberPath (.memberExpr (.identifier "Foo") (.identifier "bar")) =
      some ["Foo", "bar"] :=
  C10_window_root_elision.2.1 "Foo" "bar" (by decide)

/-- C5 counterexample: a wrapper body that is exactly one `use strict`
directive keeps the directive (because the source drops it only when
the inner body has more than one statement), while the claim as stated
requires it to be dropped. -/
theorem C5_counterexample :
    unwrapModuleBody
        [.exprStmt (.callExpr (.functionExpr []
          [.exprStmt (.lit (some "use strict")) none] false) []) none] =
      [.exprStmt (.lit (some "use strict")) none] ∧
    [Stmt.exprStmt (.lit (some "use strict")) none] ≠ ([] : List Stmt) :=
  ⟨rfl, by simp⟩

/-- C5 (amended): a program whose body is exactly one expression
statement calling a function expression is replaced by the function's
inner statements, dropping a single leading `use strict` directive only
when the inner body has more than one statement; every other program
body is left unchanged. -/
theorem C5_unwrapModuleBody :
    (∀ body : List Stmt, isIifeProgram body = false →
      unwrapModuleBody body = body) ∧
    (∀ (params : List String) (innerBody : List Stmt) (gen : Bool)
        (args : List Expr) (loc : Option SourceLocation),
      unwrapModuleBody
          [.exprStmt (.callExpr (.functionExpr params innerBody gen) args)
            loc] =
        if 1 < innerBody.length ∧ isUseStrict (innerBody.headD defaultStmt)
        then innerBody.tail
        else innerBody) := by
  constructor
  · intro body h
    unfold unwrapModuleBody
    split
    · simp [isIifeProgram] at h
    · rfl
  · intro params innerBody gen args loc
    rfl

/-- C5 witness: a two-statement program body is not the IIFE shape and
is left unchanged. -/
theorem C5_witness :
    unwrapModuleBody [.exprStmt (.identifier "a") none,
        .exprStmt (.identifier "b") none] =
      [.exprStmt (.identifier "a") none, .exprStmt (.identifier "b") none] :=
  C5_unwrapModuleBody.1 _ (by rfl)

/-- C1 counterexample: a member with an arrow-function value whose name
is listed in the mutable-export configuration is still emitted as a
`const` (single-assignment) binding, not `let`. -/
theorem C1_counterexample :
    (getNamespaceExports [(.identifier "foo", .arrowFunctionExpr [] [])]
        (some ["foo"])).map (fun e => exportBindingKind e.2) =
      [some "const"] ∧
    some "const" ≠ some "let" :=
  ⟨rfl, by simp⟩

/-- C1 (amended): among the members lowered to a variable-binding
export — object, array and literal values — a name listed in the
mutable-export configuration is emitted as a `let` binding and every
other name as `const`; arrow-function values are always emitted as
`const` bindings, function values as function-declaration exports and
identifier values as re-export specifiers, regardless of the
configuration. -/
theorem C1_getNamespaceExports :
    (∀ (mcfg : Option (List String)) (name : String) (value : Expr)
        (rest : List (Expr × Expr)),
      isObjArrayLit value = true →
      getNamespaceExports ((.identifier name, value) :: rest) mcfg =
        (name, .exportNamedDecl
          (some (.varDecl
            (if (mcfg.getD []).contains name then "let" else "const")
            [(.identifier name, some value)] none)) [] none) ::
          getNamespaceExports rest mcfg) ∧
    (∀ (mcfg : Option (List String)) (name : String) (params : List String)
        (body : List Stmt) (rest : List (Expr × Expr)),
      getNamespaceExports
          ((.identifier name, .arrowFunctionExpr params body) :: rest) mcfg =
        (name, .exportNamedDecl
          (some (.varDecl "const"
            [(.identifier name, some (.arrowFunctionExpr params body))] none))
          [] none) :: getNamespaceExports rest mcfg) ∧
    (∀ (mcfg : Option (List String)) (name : String) (params : List String)
        (body : List Stmt) (gen : Bool) (rest : List (Expr × Expr)),
      getNamespaceExports
          ((.identifier name, .functionExpr params body gen) :: rest) mcfg =
        (name, .exportNamedDecl
          (some (.functionDecl name params body gen none)) [] none) ::
          getNamespaceExports rest mcfg) ∧
    (∀ (mcfg : Option (List String)) (name v : String)
        (rest : List (Expr × Expr)),
      getNamespaceExports ((.identifier name, .identifier v) :: rest) mcfg =
        (name, .exportNamedDecl none [(name, name)] none) ::
          getNamespaceExports rest mcfg) := by
  refine ⟨?_, ?_, ?_, ?_⟩
  · intro mcfg name value rest h
    cases value <;> first
      | rfl
      | simp [isObjArrayLit, Expr.typeOf] at h
  · intro mcfg name params body rest
    rfl
  · intro mcfg name params body gen rest
    rfl
  · intro mcfg name v rest
    rfl

/-- C1 witness: a literal-valued member listed in the configuration is
emitted as a `let` binding. -/
theorem C1_witness :
    getNamespaceExports [(.identifier "a", .lit none)] (some ["a"]) =
      [("a", .exportNamedDecl
        (some (.varDecl "let" [(.identifier "a", some (.lit none))] none))
        [] none)] := by
  have h := C1_getNamespaceExports.1 (some ["a"]) "a" (.lit none) []
    (by decide)
  simpa using h

/-- C6: the synthesized import declarations for a dependency URL and
recorded referenced-name set contain a namespace-style import (binding
the module identifier derived from the URL) exactly when `*` was
recorded, a named import listing every other recorded name under
its import alias when such names exist, and a bare side-effect import (no
specifiers) exactly when no names and no `*` reference were recorded. -/
theorem C6_getImportDeclarations (specifierUrl : String)
    (namedExports : Option (List String)) :
    ((⟨[.importNamespaceSpecifier (getModuleId specifierUrl)], specifierUrl⟩ :
        ImportDeclaration) ∈
          getImportDeclarations specifierUrl namedExports ↔
      (namedExports.getD []).contains "*" = true) ∧
    ((namedExports.getD []).filter (· ≠ "*") ≠ [] →
      (⟨((namedExports.getD []).filter (· ≠ "*")).map
          (fun s => .importSpecifier s (getImportAlias s)), specifierUrl⟩ :
        ImportDeclaration) ∈
          getImportDeclarations specifierUrl namedExports) ∧
    ((⟨[], specifierUrl⟩ : ImportDeclaration) ∈
        getImportDeclarations specifierUrl namedExports ↔
      ((namedExports.getD []).filter (· ≠ "*") = [] ∧
        (namedExports.getD []).contains "*" = false)) := by
  by_cases hs : (namedExports.getD []).contains "*" = true <;>
    rcases hfl : (namedExports.getD []).filter (· ≠ "*") with _ | ⟨a, l⟩ <;>
      simp only [ne_eq, decide_not] at hfl <;>
        simp [getImportDeclarations, hs, hfl]

/-- C6 witness: a set recording `*` and one plain name synthesizes both
the namespace import and the aliased named import. -/
theorem C6_witness :
    (⟨[.importNamespaceSpecifier "$$x"], "x.html"⟩ : ImportDeclaration) ∈
        getImportDeclarations "x.html" (some ["*", "a"]) ∧
    (⟨[.importSpecifier "a" "$a"], "x.html"⟩ : ImportDeclaration) ∈
        getImportDeclarations "x.html" (some ["*", "a"]) := by
  have h := C6_getImportDeclarations "x.html" (some ["*", "a"])
  exact ⟨by simpa using h.1.mpr (by decide), by simpa using h.2.1 (by decide)⟩

/-- `splitOnNewline` always returns at least one line. -/
theorem splitOnNewline_ne_nil (s : List Char) : splitOnNewline s ≠ [] := by
  cases s with
  | nil => simp [splitOnNewline]
  | cons c rest =>
      unfold splitOnNewline
      split
      · simp_all
      · simp_all
        split <;> simp

/-- Joining the lines of a split string restores the string. -/
theorem joinLines_splitOnNewline (s : List Char) :
    joinLines (splitOnNewline s) = s := by
  induction s with
  | nil => rfl
  | cons c rest ih =>
      by_cases hc : c = '\n'
      · subst hc
        rcases h : splitOnNewline rest with _ | ⟨l, ls⟩
        · exact absurd h (splitOnNewline_ne_nil rest)
        · rw [h] at ih
          simp [splitOnNewline, h, joinLines, ih]
      · rcases h : splitOnNewline rest with _ | ⟨l, ls⟩
        · exact absurd h (splitOnNewline_ne_nil rest)
        · rw [h] at ih
          cases ls with
          | nil => simp [splitOnNewline, hc, h, joinLines] at ih ⊢; rw [ih]
          | cons l₂ ls₂ =>
              simp [splitOnNewline, hc, h, joinLines] at ih ⊢
              simp [ih]

/-- `replaceAllChar` distributes over concatenation. -/
theorem replaceAllChar_append (t : Char) (esc : List Char) (a b : List Char) :
    replaceAllChar t esc (a ++ b) =
      replaceAllChar t esc a ++ replaceAllChar t esc b := by
  induction a with
  | nil => rfl
  | cons c rest ih => simp [replaceAllChar, ih]

/-- The three sequential global replacements — backslash first, then
backtick, then `$` — amount to one simultaneous per-character escape:
the order protects the backslashes introduced by the later
replacements from being doubled. -/
theorem escape_comp (s : List Char) :
    replaceAllChar '$' ['\\', '$']
        (replaceAllChar backtickChar ['\\', backtickChar]
          (replaceAllChar '\\' ['\\', '\\'] s)) =
      s.flatMap templateEscapeChar := by
  induction s with
  | nil => rfl
  | cons c rest ih =>
      show replaceAllChar '$' ['\\', '$']
          (replaceAllChar backtickChar ['\\', backtickChar]
            ((if c = '\\' then ['\\', '\\'] else [c]) ++
              replaceAllChar '\\' ['\\', '\\'] rest)) = _
      rw [replaceAllChar_append, replaceAllChar_append]
      rw [List.flatMap_cons, ← ih]
      congr 1
      by_cases h1 : c = '\\'
      · subst h1; rfl
      · by_cases h2 : c = backtickChar
        · subst h2; rfl
        · by_cases h3 : c = '$'
          · subst h3; rfl
          · simp [replaceAllChar, templateEscapeChar, h1, h2, h3]

/-- C7 counterexample: serialized content with a leading
whitespace-only line is not reproduced verbatim in the cooked text —
the blank line is stripped. -/
theorem C7_counterexample :
    (nodeToTemplateLiteral [' ', ' ', ' ', '\n', 'f', 'o', 'o'] false).cooked =
      ['f', 'o', 'o'] ∧
    (['f', 'o', 'o'] : List Char) ≠ [' ', ' ', ' ', '\n', 'f', 'o', 'o'] :=
  ⟨rfl, by decide⟩

/-- C7 (amended): the raw text of the markup literal always equals its
cooked text escaped per character — backslash, backtick and `$`, in
that order of replacement passes — and the cooked text reproduces the
serialized content verbatim except that leading and trailing
whitespace-only lines are removed (and, when requested, a newline is
added at each end): when the first and last lines are not
whitespace-only and no newlines are added, cooked equals the serialized
content exactly. -/
theorem C7_nodeToTemplateLiteral (serialized : List Char)
    (addNewlines : Bool) :
    (nodeToTemplateLiteral serialized addNewlines).raw =
      ((nodeToTemplateLiteral serialized addNewlines).cooked).flatMap
        templateEscapeChar ∧
    (isBlankLine ((splitOnNewline serialized).headD []) = false →
      isBlankLine ((splitOnNewline serialized).reverse.headD []) = false →
      (nodeToTemplateLiteral serialized false).cooked = serialized) := by
  constructor
  · simp [nodeToTemplateLiteral, escape_comp]
  · intro h1 h2
    rcases hsp : splitOnNewline serialized with _ | ⟨l, ls⟩
    · exact absurd hsp (splitOnNewline_ne_nil serialized)
    · rw [hsp] at h1 h2
      simp only [List.headD_cons] at h1
      have e1 : (l :: ls).dropWhile isBlankLine = l :: ls := by
        simp [List.dropWhile_cons, h1]
      rcases hr : (l :: ls).reverse with _ | ⟨r0, rrest⟩
      · simp at hr
      · have h2' : isBlankLine r0 = false := by
          rw [hr] at h2; simpa using h2
        have e2 : ((l :: ls).reverse).dropWhile isBlankLine =
            (l :: ls).reverse := by
          rw [hr]; simp [List.dropWhile_cons, h2']
        show (nodeToTemplateLiteral serialized false).cooked = serialized
        unfold nodeToTemplateLiteral
        rw [hsp]
        simp only [e1, e2, List.reverse_reverse, Bool.false_eq_true,
          if_false]
        rw [← hsp, joinLines_splitOnNewline]

/-- C7 witness: serialized content whose first and last lines are not
whitespace-only is reproduced verbatim in the cooked text. -/
theorem C7_witness :
    (nodeToTemplateLiteral ['a', '\n', 'b'] false).cooked =
      ['a', '\n', 'b'] :=
  (C7_nodeToTemplateLiteral ['a', '\n', 'b'] false).2 (by decide) (by decide)

mutual

/-- After the single-scope rewrite, an expression holds no `this`
reference outside nested function scopes. -/
theorem hasOuterThis_rewriteExpr (ns : String) :
    ∀ e : Expr, hasOuterThisExpr (rewriteThisExpr ns e) = false
  | .identifier _ => rfl
  | .thisExpr => rfl
  | .lit _ => rfl
  | .objectExpr props => by
      simp [rewriteThisExpr, hasOuterThisExpr,
        hasOuterThis_rewriteProps ns props]
  | .arrayExpr elems => by
      simp [rewriteThisExpr, hasOuterThisExpr,
        hasOuterThis_rewriteExprs ns elems]
  | .functionExpr _ _ _ => rfl
  | .arrowFunctionExpr _ body => by
      simp [rewriteThisExpr, hasOuterThisExpr,
        hasOuterThis_rewriteStmts ns body]
  | .memberExpr o p => by
      simp [rewriteThisExpr, hasOuterThisExpr,
        hasOuterThis_rewriteExpr ns o, hasOuterThis_rewriteExpr ns p]
  | .callExpr c args => by
      simp [rewriteThisExpr, hasOuterThisExpr,
        hasOuterThis_rewriteExpr ns c, hasOuterThis_rewriteExprs ns args]
  | .assignExpr left right => by
      simp [rewriteThisExpr, hasOuterThisExpr,
        hasOuterThis_rewriteExpr ns left, hasOuterThis_rewriteExpr ns right]
  | .classDeclaration _ => rfl
  | .otherExpr => rfl

/-- `hasOuterThis_rewriteExpr` over expression lists. -/
theorem hasOuterThis_rewriteExprs (ns : String) :
    ∀ es : List Expr, hasOuterThisExprs (rewriteThisExprs ns es) = false
  | [] => rfl
  | e :: rest => by
      simp [rewriteThisExprs, hasOuterThisExprs,
        hasOuterThis_rewriteExpr ns e, hasOuterThis_rewriteExprs ns rest]

/-- `hasOuterThis_rewriteExpr` over object properties. -/
theorem hasOuterThis_rewriteProps (ns : String) :
    ∀ props : List (Expr × Expr),
      hasOuterThisProps (rewriteThisProps ns props) = false
  | [] => rfl
  | (k, v) :: rest => by
      simp [rewriteThisProps, hasOuterThisProps,
        hasOuterThis_rewriteExpr ns k, hasOuterThis_rewriteExpr ns v,
        hasOuterThis_rewriteProps ns rest]

/-- After the single-scope rewrite, a statement holds no `this`
reference outside nested function scopes. -/
theorem hasOuterThis_rewriteStmt (ns : String) :
    ∀ s : Stmt, hasOuterThisStmt (rewriteThisStmt ns s) = false
  | .exprStmt e _ => by
      simp [rewriteThisStmt, hasOuterThisStmt, hasOuterThis_rewriteExpr ns e]
  | .varDecl _ decls _ => by
      simp [rewriteThisStmt, hasOuterThisStmt,
        hasOuterThis_rewriteDecls ns decls]
  | .functionDecl _ _ _ _ _ => rfl
  | .classDeclStmt _ _ => rfl
  | .returnStmt arg _ => by
      simp [rewriteThisStmt, hasOuterThisStmt,
        hasOuterThis_rewriteOptExpr ns arg]
  | .exportNamedDecl decl _ _ => by
      simp [rewriteThisStmt, hasOuterThisStmt,
        hasOuterThis_rewriteOptStmt ns decl]
  | .exportDefaultDecl decl _ => by
      simp [rewriteThisStmt, hasOuterThisStmt,
        hasOuterThis_rewriteStmt ns decl]

/-- `hasOuterThis_rewriteExpr` over variable declarators. -/
theorem hasOuterThis_rewriteDecls (ns : String) :
    ∀ decls : List (Expr × Option Expr),
      hasOuterThisDecls (rewriteThisDecls ns decls) = false
  | [] => rfl
  | (id, init) :: rest => by
      simp [rewriteThisDecls, hasOuterThisDecls,
        hasOuterThis_rewriteExpr ns id, hasOuterThis_rewriteOptExpr ns init,
        hasOuterThis_rewriteDecls ns rest]

/-- `hasOuterThis_rewriteExpr` over an optional expression. -/
theorem hasOuterThis_rewriteOptExpr (ns : String) :
    ∀ oe : Option Expr, hasOuterThisOptExpr (rewriteThisOptExpr ns oe) = false
  | none => rfl
  | some e => by
      simp [rewriteThisOptExpr, hasOuterThisOptExpr,
        hasOuterThis_rewriteExpr ns e]

/-- `hasOuterThis_rewriteStmt` over an optional statement. -/
theorem hasOuterThis_rewriteOptStmt (ns : String) :
    ∀ os : Option Stmt, hasOuterThisOptStmt (rewriteThisOptStmt ns os) = false
  | none => rfl
  | some s => by
      simp [rewriteThisOptStmt, hasOuterThisOptStmt,
        hasOuterThis_rewriteStmt ns s]

/-- `hasOuterThis_rewriteStmt` over statement lists. -/
theorem hasOuterThis_rewriteStmts (ns : String) :
    ∀ body : List Stmt, hasOuterThisStmts (rewriteThisStmts ns body) = false
  | [] => rfl
  | s :: rest => by
      simp [rewriteThisStmts, hasOuterThisStmts,
        hasOuterThis_rewriteStmt ns s, hasOuterThis_rewriteStmts ns rest]

end

/-- C2 counterexample: a `this` reference inside a nested
arrow-function literal within the exported function's body is rewritten
to the namespace identifier, not left unchanged — the traversal stops
only at function expressions and function declarations. -/
theorem C2_counterexample :
    rewriteSingleScopeThisReferences
        [.exprStmt (.arrowFunctionExpr [] [.exprStmt .thisExpr none]) none]
        "Foo" =
      [.exprStmt (.arrowFunctionExpr []
        [.exprStmt (.identifier "Foo") none]) none] ∧
    [Stmt.exprStmt (.arrowFunctionExpr []
        [.exprStmt (.identifier "Foo") none]) none] ≠
      [Stmt.exprStmt (.arrowFunctionExpr []
        [.exprStmt Expr.thisExpr none]) none] :=
  ⟨rfl, by simp⟩

/-- C2 (amended): after namespace exports are created, every `this`
reference in the body of a function that became a named or default
export — outside any nested function expression or function
declaration — is replaced by the namespace identifier, other statements
are untouched, and nested function-expression/function-declaration
scopes are preserved verbatim; `this` inside nested arrow functions
(which inherit `this`) is rewritten together with the enclosing
scope. -/
theorem C2_rewriteNamespaceThisReferences :
    (∀ (ns name : String) (params : List String) (body : List Stmt)
        (gen : Bool) (l₂ l : Option SourceLocation)
        (specs : List (String × String)) (rest : List Stmt),
      rewriteNamespaceThisReferences (some ns)
          (.exportNamedDecl (some (.functionDecl name params body gen l₂))
            specs l :: rest) =
        .exportNamedDecl (some (.functionDecl name params
            (rewriteSingleScopeThisReferences body ns) gen l₂)) specs l ::
          rewriteNamespaceThisReferences (some ns) rest) ∧
    (∀ (ns name : String) (params : List String) (body : List Stmt)
        (gen : Bool) (l₂ l : Option SourceLocation) (rest : List Stmt),
      rewriteNamespaceThisReferences (some ns)
          (.exportDefaultDecl (.functionDecl name params body gen l₂) l ::
            rest) =
        .exportDefaultDecl (.functionDecl name params
            (rewriteSingleScopeThisReferences body ns) gen l₂) l ::
          rewriteNamespaceThisReferences (some ns) rest) ∧
    (∀ (ns : String) (s : Stmt) (rest : List Stmt),
      isExportedFunctionDeclStmt s = false →
      rewriteNamespaceThisReferences (some ns) (s :: rest) =
        s :: rewriteNamespaceThisReferences (some ns) rest) ∧
    (∀ (ns : String) (body : List Stmt),
      hasOuterThisStmts (rewriteSingleScopeThisReferences body ns) = false) ∧
    (∀ ns : String, rewriteThisExpr ns .thisExpr = .identifier ns) ∧
    (∀ (ns : String) (params : List String) (body : List Stmt) (gen : Bool),
      rewriteThisExpr ns (.functionExpr params body gen) =
        .functionExpr params body gen) := by
  refine ⟨?_, ?_, ?_, ?_, ?_, ?_⟩
  · intro ns name params body gen l₂ l specs rest
    rfl
  · intro ns name params body gen l₂ l rest
    rfl
  · intro ns s rest h
    cases s with
    | exportNamedDecl decl specs l =>
        cases decl with
        | none => rfl
        | some d =>
            cases d <;> first
              | rfl
              | simp [isExportedFunctionDeclStmt] at h
    | exportDefaultDecl d l =>
        cases d <;> first
          | rfl
          | simp [isExportedFunctionDeclStmt] at h
    | exprStmt e l => rfl
    | varDecl kind decls l => rfl
    | functionDecl name params body gen l => rfl
    | classDeclStmt name l => rfl
    | returnStmt arg l => rfl
  · intro ns body
    exact hasOuterThis_rewriteStmts ns body
  · intro ns
    rfl
  · intro ns params body gen
    rfl

/-- C2 witness: a non-export statement is left untouched. -/
theorem C2_witness :
    rewriteNamespaceThisReferences (some "Foo")
        [.exprStmt (.identifier "x") none] =
      [.exprStmt (.identifier "x") none] := by
  have h := C2_rewriteNamespaceThisReferences.2.2.1 "Foo"
    (.exprStmt (.identifier "x") none) [] (by decide)
  exact h.trans rfl

/-- C3: converting a document whose module record already exists in the
registry (keyed by its derived JS URL) performs no further mutation and
yields the existing record; and during dependency conversion, a
dependency whose derived JS URL is already registered is skipped. -/
theorem C3_convert_idempotent :
    (∀ (excludes : List String) (modules : List (String × JsModule))
        (document : Document) (existing : JsModule),
      lookupAssoc modules (htmlUrlToJs document.url) = some existing →
      convertDocument excludes modules document = (modules, existing, [])) ∧
    (∀ (excludes : List String) (modules : List (String × JsModule))
        (baseUrl importUrl : String) (importDoc : Document)
        (rest : List (String × Document)),
      excludes.contains importUrl = false →
      (lookupAssoc modules (htmlUrlToJs importUrl baseUrl)).isSome = true →
      convertDeps excludes modules baseUrl ((importUrl, importDoc) :: rest) =
        convertDeps excludes modules baseUrl rest) := by
  constructor
  · intro excludes modules document existing h
    unfold convertDocument
    rw [h]
  · intro excludes modules baseUrl importUrl importDoc rest h1 h2
    conv_lhs => unfold convertDeps
    simp [h1, h2]

/-- C3 witness: a registered URL short-circuits both the conversion and
the dependency walk. -/
theorem C3_witness :
    convertDocument [] [("a.js", ⟨"a.js", "x", [], []⟩)]
        (.mk "a.html" [[]] []) =
      ([("a.js", ⟨"a.js", "x", [], []⟩)], ⟨"a.js", "x", [], []⟩, []) ∧
    convertDeps [] [("a.js", ⟨"a.js", "x", [], []⟩)] "root.html"
        [("a.html", .mk "a.html" [[]] [])] =
      [("a.js", ⟨"a.js", "x", [], []⟩)] :=
  ⟨C3_convert_idempotent.1 [] _ _ _ (by decide),
    (C3_convert_idempotent.2 [] _ "root.html" "a.html" (.mk "a.html" [[]] [])
      [] (by decide) (by decide)).trans (by rw [convertDeps])⟩

/-- C4: a document with more than one embedded script aborts its
conversion — the constructor logs the `multiple scripts` diagnostic and
binds no program — leaving its module record registered with empty
source text, and registry entries of every other URL are unaffected. -/
theorem C4_multiple_scripts (excludes : List String)
    (modules : List (String × JsModule)) (u : String) (s₁ s₂ : List Stmt)
    (ss : List (List Stmt)) (imports : List (String × Document))
    (h : lookupAssoc modules (htmlUrlToJs u) = none) :
    convertDocument excludes modules (.mk u (s₁ :: s₂ :: ss) imports) =
      (setAssoc modules (htmlUrlToJs u) ⟨htmlUrlToJs u, "", [], []⟩,
        ⟨htmlUrlToJs u, "", [], []⟩, ["multiple scripts"]) ∧
    (∀ otherUrl : String, otherUrl ≠ htmlUrlToJs u →
      lookupAssoc
          (convertDocument excludes modules (.mk u (s₁ :: s₂ :: ss)
            imports)).1 otherUrl =
        lookupAssoc modules otherUrl) := by
  have e : convertDocument excludes modules (.mk u (s₁ :: s₂ :: ss)
      imports) =
      (setAssoc modules (htmlUrlToJs u) ⟨htmlUrlToJs u, "", [], []⟩,
        ⟨htmlUrlToJs u, "", [], []⟩, ["multiple scripts"]) := by
    unfold convertDocument
    rw [show Document.url (.mk u (s₁ :: s₂ :: ss) imports) = u from rfl, h]
    rfl
  refine ⟨e, ?_⟩
  intro otherUrl hne
  rw [e]
  exact lookupAssoc_setAssoc_ne modules (htmlUrlToJs u) otherUrl _ hne

/-- C4 witness: a two-script document yields the diagnostic and an
empty module, and the sibling entry is untouched. -/
theorem C4_witness :
    convertDocument [] [("b.js", ⟨"b.js", "y", [], []⟩)]
        (.mk "a.html" [[], []] []) =
      ([("b.js", ⟨"b.js", "y", [], []⟩), ("a.js", ⟨"a.js", "", [], []⟩)],
        ⟨"a.js", "", [], []⟩, ["multiple scripts"]) ∧
    lookupAssoc
        (convertDocument [] [("b.js", ⟨"b.js", "y", [], []⟩)]
          (.mk "a.html" [[], []] [])).1 "b.js" =
      some ⟨"b.js", "y", [], []⟩ := by
  have h := C4_multiple_scripts [] [("b.js", ⟨"b.js", "y", [], []⟩)]
    "a.html" [] [] [] [] (by decide)
  exact ⟨h.1.trans (by decide), (h.2 "b.js" (by decide)).trans (by decide)⟩

/-- C8: an export-shaped assignment to exactly `Polymer._polymerFn`
whose right side is neither an object literal, an identifier, nor a
class declaration is rewritten to `export const Polymer = <value>` (the
binding is named `Polymer`, not `_polymerFn`), and the export is
registered under the namespace path `Polymer`. -/
theorem C8_polymerFn_special_case (ctx : RewriteCtx) (value : Expr)
    (loc : Option SourceLocation)
    (h1 : "Polymer" ∈ ctx.namespaces)
    (h2 : value.typeOf ≠ "ObjectExpression")
    (h3 : value.typeOf ≠ "Identifier")
    (h4 : value.typeOf ≠ "ClassDeclaration") :
    rewriteNamespaceExports ctx
        [.exprStmt (.assignExpr
          (.memberExpr (.identifier "Polymer") (.identifier "_polymerFn"))
          value) loc] 0 =
      .ok ⟨[.exportNamedDecl (some (.varDecl "const"
          [(.identifier "Polymer", some value)] none)) [] none],
        1, none, some "Polymer", ["Polymer"],
        [("Polymer", ctx.jsUrl, "Polymer")]⟩ := by
  have hj : String.intercalate "." ["Polymer", "_polymerFn"] =
      "Polymer._polymerFn" := rfl
  have hstep : rewriteStatementStep ctx
      ⟨[.exprStmt (.assignExpr
        (.memberExpr (.identifier "Polymer") (.identifier "_polymerFn"))
        value) loc], 0, none, none, [], []⟩
      (.exprStmt (.assignExpr
        (.memberExpr (.identifier "Polymer") (.identifier "_polymerFn"))
        value) loc) =
      .ok ⟨[.exportNamedDecl (some (.varDecl "const"
          [(.identifier "Polymer", some value)] none)) [] none],
        0, none, some "Polymer", ["Polymer"],
        [("Polymer", ctx.jsUrl, "Polymer")]⟩ := by
    cases value
    case objectExpr props => exact absurd rfl h2
    case identifier n => exact absurd rfl h3
    case classDeclaration n => exact absurd rfl h4
    all_goals
      simp [rewriteStatementStep, getExport, getMemberPath, h1,
        isDeclaration, Expr.typeOf, addExport, addToSet, setAssoc, hj]
  simp [rewriteNamespaceExports, rewriteNamespaceExportsLoop, hstep]

/-- C8 witness: a call-expression value triggers the special case on a
concrete conversion context. -/
theorem C8_witness :
    rewriteNamespaceExports ⟨["Polymer"], [], [], [], "polymer.js"⟩
        [.exprStmt (.assignExpr
          (.memberExpr (.identifier "Polymer") (.identifier "_polymerFn"))
          (.callExpr (.identifier "f") [])) none] 0 =
      .ok ⟨[.exportNamedDecl (some (.varDecl "const"
          [(.identifier "Polymer", some (.callExpr (.identifier "f") []))]
          none)) [] none],
        1, none, some "Polymer", ["Polymer"],
        [("Polymer", "polymer.js", "Polymer")]⟩ :=
  C8_polymerFn_special_case ⟨["Polymer"], [], [], [], "polymer.js"⟩
    (.callExpr (.identifier "f") []) none (by decide) (by decide) (by decide)
    (by decide)

/-- C9: an export-shaped assignment whose right side is an identifier
declared as a namespace feature raises a hard failure when the node the
feature points at cannot be located in the program — here every program
statement carries no source location while the feature points at a
concrete one, so `getNode` finds nothing and the conversion errors out
instead of producing a partial result. -/
theorem C9_missing_namespace_node (jsUrl : String) (floc : SourceLocation) :
    getNodeStmts (some floc)
        [.exprStmt (.assignExpr
          (.memberExpr (.identifier "Polymer") (.identifier "X"))
          (.identifier "X")) none] = none ∧
    rewriteNamespaceExports
        ⟨["Polymer"], [⟨["Polymer.X"], ["namespace"], some floc⟩], [], [],
          jsUrl⟩
        [.exprStmt (.assignExpr
          (.memberExpr (.identifier "Polymer") (.identifier "X"))
          (.identifier "X")) none] 0 =
      .error "cannot find associated node for namespace" := by
  have hg : getNodeStmts (some floc)
      [.exprStmt (.assignExpr
        (.memberExpr (.identifier "Polymer") (.identifier "X"))
        (.identifier "X")) none] = none := by
    simp [getNodeStmts, getNodeStmt, getNodeExpr, sourceLocationsEqual,
      Stmt.loc]
  refine ⟨hg, ?_⟩
  have hj : String.intercalate "." ["Polymer", "X"] = "Polymer.X" := rfl
  have hstep : rewriteStatementStep
      ⟨["Polymer"], [⟨["Polymer.X"], ["namespace"], some floc⟩], [], [],
        jsUrl⟩
      ⟨[.exprStmt (.assignExpr
        (.memberExpr (.identifier "Polymer") (.identifier "X"))
        (.identifier "X")) none], 0, none, none, [], []⟩
      (.exprStmt (.assignExpr
        (.memberExpr (.identifier "Polymer") (.identifier "X"))
        (.identifier "X")) none) =
      .error "cannot find associated node for namespace" := by
    simp [rewriteStatementStep, getExport, getMemberPath, hj, hg]
  simp [rewriteNamespaceExports, rewriteNamespaceExportsLoop, hstep]

end DocumentConverter
